import Mathlib

/-!
# Verification of the audio-streamer device registry and stream supervisor

A shallow embedding of `src/audio.rs`, `src/config.rs` and the supervisor
methods of `src/gui.rs`, together with proofs of the specified properties.

Modelling conventions:
* Rust `String` / `&str` values are modelled as `List Char`.  For valid
  UTF-8, Rust's byte-wise lexicographic comparison of strings agrees with
  the codepoint-wise lexicographic order on the character lists, which is
  the `LinearOrder (List Char)` lexicographic order from Mathlib.
* Machine integers (`u8`, `u16`, `u32`) are modelled as `Nat`; the `i32`
  ranking score is modelled as `Int`.  No operation in the source can
  overflow (the score is at most 7), so this is faithful.
* The outputs of the two `pactl` subprocess queries are inputs of the
  model: `get_audio_sources` takes the stdout of `pactl list sources` and
  an `Option (List Char)` for the stdout of `pactl get-default-sink`
  (`none` models any failure of that query; `unwrap_or_default` then
  yields the empty string, as in the source).
* `sort_by` in Rust is a stable sort with respect to the comparator
  `score(b).cmp(&score(a)).then_with(|| a.description.cmp(&b.description))`.
  A stable sort for a given total preorder is unique, so it is modelled by
  `List.insertionSort rankLE`, which is stable for the corresponding
  relation `rankLE a b ↔ comparator a b ≠ Greater`.
* Process spawning in the supervisor is modelled by an explicit log of
  spawned argument vectors plus a fresh-pid counter; the fallible
  `kill()` / `wait()` calls of `stop_streaming` are modelled by boolean
  outcome parameters.
-/

/-! ## Character-list models of the Rust string primitives -/

/-- Rust `str::trim` (whitespace stripped from both ends). -/
def trimChars (s : List Char) : List Char :=
  ((s.dropWhile Char.isWhitespace).reverse.dropWhile Char.isWhitespace).reverse

/-- Worker for `splitOnSub`, with fuel for structural recursion.  The fuel is
initialised to the length of the input, which suffices because each step
consumes at least one character. -/
def splitOnSubGo (marker : List Char) : Nat → List Char → List Char → List (List Char)
  | _, acc, [] => [acc.reverse]
  | 0, acc, rest => [acc.reverse ++ rest]
  | fuel + 1, acc, c :: cs =>
      if marker.isPrefixOf (c :: cs) then
        acc.reverse :: splitOnSubGo marker fuel [] ((c :: cs).drop marker.length)
      else
        splitOnSubGo marker fuel (c :: acc) cs

/-- Rust `str::split` with a non-empty literal pattern: splits at every
non-overlapping occurrence of `marker`, keeping empty chunks. -/
def splitOnSub (marker s : List Char) : List (List Char) :=
  splitOnSubGo marker s.length [] s

/-- Split at every occurrence of a single separator character. -/
def splitOnChar (sep : Char) : List Char → List (List Char)
  | [] => [[]]
  | c :: cs =>
      if c = sep then [] :: splitOnChar sep cs
      else
        match splitOnChar sep cs with
        | [] => [[c]]
        | l :: ls => (c :: l) :: ls

/-- Strip one trailing carriage return (for `\r\n` line endings). -/
def dropCR (l : List Char) : List Char :=
  if l.getLast? = some '\r' then l.dropLast else l

/-- Rust `str::lines`: split at `\n` or `\r\n`; a final line terminator does
not produce a trailing empty line. -/
def linesOf (s : List Char) : List (List Char) :=
  let parts := (splitOnChar '\n' s).map dropCR
  if parts.getLast? = some [] then parts.dropLast else parts

/-- Rust `str::strip_prefix`. -/
def stripPrefixChars (p s : List Char) : Option (List Char) :=
  if p.isPrefixOf s then some (s.drop p.length) else none

/-- Rust `str::contains` with a literal substring pattern. -/
def containsSub (pat : List Char) : List Char → Bool
  | [] => pat.isEmpty
  | c :: cs => pat.isPrefixOf (c :: cs) || containsSub pat cs

/-- Decimal rendering of a `Nat`, i.e. Rust `to_string()` / `format!("{}")`
on an unsigned integer. -/
def natChars (n : Nat) : List Char := (Nat.repr n).toList

/-! ## `src/audio.rs` — device discovery and ranking -/

/-- The `AudioSource` struct of `src/audio.rs`. -/
structure AudioSource where
  name : List Char
  description : List Char
  is_monitor : Bool
  is_running : Bool
  is_default : Bool
deriving DecidableEq, Repr

/-- Model of `get_default_sink_monitor_name`, given the stdout of a successful
`pactl get-default-sink` query: trim it and append `.monitor`. -/
def get_default_sink_monitor_name (stdout : List Char) : List Char :=
  trimChars stdout ++ ".monitor".toList

/-- The per-block field scan of `parse_pactl_sources_output`: every line is
trimmed, then matched against the `Name:` / `Description:` / `State:`
field markers; a later matching line overwrites an earlier one. -/
def scanBlockLine (acc : Option (List Char) × Option (List Char) × Option (List Char))
    (line : List Char) :
    Option (List Char) × Option (List Char) × Option (List Char) :=
  let trimmed := trimChars line
  match stripPrefixChars "Name:".toList trimmed with
  | some val => (some (trimChars val), acc.2.1, acc.2.2)
  | none =>
    match stripPrefixChars "Description:".toList trimmed with
    | some val => (acc.1, some (trimChars val), acc.2.2)
    | none =>
      match stripPrefixChars "State:".toList trimmed with
      | some val => (acc.1, acc.2.1, some (trimChars val))
      | none => acc

/-- Parse one `Source #` block: the block is kept only when all three of
name, description and state were found. -/
def parseSourceBlock (block : List Char) :
    Option (List Char × List Char × List Char) :=
  match (linesOf block).foldl scanBlockLine (none, none, none) with
  | (some n, some d, some st) => some (n, d, st)
  | _ => none

/-- Model of `parse_pactl_sources_output`: split the stdout of `pactl list sources`
into `Source #` blocks, skip blocks that are empty after trimming, and
keep the `(name, description, state)` triple of each block in which all
three fields occur. -/
def parse_pactl_sources_output (output : List Char) :
    List (List Char × List Char × List Char) :=
  ((splitOnSub "Source #".toList output).filter
      (fun b => !(trimChars b).isEmpty)).filterMap parseSourceBlock

/-- The `AudioSource` built from one parsed `(name, description, state)`
triple inside `get_audio_sources`: `is_monitor` is substring containment
of `.monitor` in the name, `is_running` is equality of the state with the
exact token `RUNNING`, and `is_default` is equality of the name with the
derived default-sink monitor name. -/
def toAudioSource (default_sink_monitor : List Char)
    (t : List Char × List Char × List Char) : AudioSource :=
  { name := t.1
    description := t.2.1
    is_monitor := containsSub ".monitor".toList t.1
    is_running := t.2.2 == "RUNNING".toList
    is_default := t.1 == default_sink_monitor }

/-- The ranking score of `get_audio_sources`: running adds 4, default adds
2, monitor adds 1 (an `i32` in the source). -/
def score (s : AudioSource) : Int :=
  ((0 + (if s.is_running then 4 else 0)) + (if s.is_default then 2 else 0)) +
    (if s.is_monitor then 1 else 0)

/-- The total preorder underlying the sort comparator
`score(b).cmp(&score(a)).then_with(|| a.description.cmp(&b.description))`:
`a` may come before `b` when `a` has the strictly larger score, or equal
scores and `a.description ≤ b.description` lexicographically. -/
def rankLE (a b : AudioSource) : Prop :=
  score b < score a ∨ (score a = score b ∧ a.description ≤ b.description)

instance : DecidableRel rankLE := fun a b => by
  unfold rankLE; infer_instance

/-- Model of `get_audio_sources`, as a function of the stdout of
`pactl list sources` and the outcome of the default-sink query (`none`
models a failed query; `unwrap_or_default` then gives the empty string).
The stable `sort_by` is modelled by the stable `insertionSort`. -/
def get_audio_sources (sources_stdout : List Char)
    (default_sink_stdout : Option (List Char)) : List AudioSource :=
  let parsed := parse_pactl_sources_output sources_stdout
  let default_sink_monitor :=
    (default_sink_stdout.map get_default_sink_monitor_name).getD []
  List.insertionSort rankLE (parsed.map (toAudioSource default_sink_monitor))

/-- The `Result` layer of `get_audio_sources`: a failure of the
`pactl list sources` invocation itself (`list_ok = false`) is the only
discovery error; a failed default-sink query (`default_sink_stdout = none`)
still produces a list. -/
def get_audio_sources_checked (list_ok : Bool) (sources_stdout : List Char)
    (default_sink_stdout : Option (List Char)) : Option (List AudioSource) :=
  if list_ok then some (get_audio_sources sources_stdout default_sink_stdout)
  else none

/-- Model of `get_best_source_index`: the list is sorted best-first, so the best
source is always index 0. -/
def get_best_source_index (_sources : List AudioSource) : Nat := 0

/-! ## `src/config.rs` — configuration and ffmpeg invocation -/

/-- The `Config` struct of `src/config.rs`. -/
structure Config where
  target_ip : List Char
  target_port : Nat
  audio_codec : List Char
  bitrate : List Char
  sample_rate : Nat
  channels : Nat
  buffer_size : Nat
  low_latency : Bool
  preferred_source : Option (List Char)
deriving DecidableEq, Repr

/-- Model of `Config::default()`. -/
def Config.defaultConfig : Config :=
  { target_ip := []
    target_port := 1234
    audio_codec := "aac".toList
    bitrate := "192k".toList
    sample_rate := 48000
    channels := 2
    buffer_size := 1316
    low_latency := true
    preferred_source := none }

/-- Model of `Config::is_ip_configured`: the target IP is non-empty and differs from
the literal `0.0.0.0`. -/
def Config.is_ip_configured (c : Config) : Bool :=
  !c.target_ip.isEmpty && c.target_ip != "0.0.0.0".toList

/-- The destination argument
`format!("udp://{}:{}?pkt_size={}", target_ip, target_port, buffer_size)`. -/
def Config.destination (c : Config) : List Char :=
  "udp://".toList ++ c.target_ip ++ ":".toList ++ natChars c.target_port ++
    "?pkt_size=".toList ++ natChars c.buffer_size

/-- Model of `Config::build_ffmpeg_command`. -/
def Config.build_ffmpeg_command (c : Config) (source : List Char) :
    List (List Char) :=
  (["-f".toList, "pulse".toList,
    "-i".toList, source,
    "-ac".toList, natChars c.channels,
    "-ar".toList, natChars c.sample_rate,
    "-c:a".toList, c.audio_codec,
    "-b:a".toList, c.bitrate] ++
   (if c.low_latency then
      ["-flags".toList, "+low_delay".toList,
       "-fflags".toList, "+nobuffer".toList,
       "-flush_packets".toList, "1".toList]
    else []) ++
   ["-f".toList, "mpegts".toList,
    "-muxdelay".toList, "0".toList,
    "-muxpreload".toList, "0".toList,
    c.destination])

/-! ## `src/gui.rs` — stream supervisor state -/

/-- The supervisor-relevant state of `AudioStreamerApp`, together with an
explicit model of the process environment: `spawned` logs every argument
vector passed to a spawned `ffmpeg` process and `next_pid` provides fresh
process handles (spawning is modelled as succeeding). -/
structure AppState where
  config : Config
  sources : List AudioSource
  selected_source : Nat
  streaming : Bool
  ffmpeg_process : Option Nat
  status_message : List Char
  next_pid : Nat
  spawned : List (List (List Char))
deriving DecidableEq, Repr

/-- Model of `AudioStreamerApp::start_streaming`.  Mirrors the source exactly: an
unconfigured IP is reported and nothing else happens; otherwise, if the
selected index denotes a source, a verbose-logging prefix is prepended to
the built command and a new ffmpeg child is spawned and stored — with no
check whatsoever that a stream is already running. -/
def start_streaming (st : AppState) : AppState :=
  if st.config.is_ip_configured then
    match st.sources.get? st.selected_source with
    | some source =>
        let args := st.config.build_ffmpeg_command source.name
        let debug_args := ["-v".toList, "info".toList] ++ args
        { st with
          spawned := st.spawned ++ [debug_args]
          ffmpeg_process := some st.next_pid
          next_pid := st.next_pid + 1
          streaming := true
          status_message :=
            "Streaming ".toList ++ source.description ++ " to ".toList ++
              st.config.target_ip ++ ":".toList ++
              natChars st.config.target_port ++
              " (Check VLC: udp://@:".toList ++
              natChars st.config.target_port ++ ")".toList }
    | none => st
  else
    { st with status_message := "Please set target IP first".toList }

/-- Model of `AudioStreamerApp::stop_streaming`.  Here `kill_fails` / `wait_fails` are the
outcomes of the fallible `Child::kill` / `Child::wait` calls.  The `?`
operator in the source returns the error immediately, after the handle was
already moved out by `take()` but before `streaming` is cleared.  The
second component is `true` when the method returns `Ok(())`. -/
def stop_streaming (kill_fails wait_fails : Bool) (st : AppState) :
    AppState × Bool :=
  match st.ffmpeg_process with
  | some _ =>
      let taken := { st with ffmpeg_process := none }
      if kill_fails then (taken, false)
      else if wait_fails then (taken, false)
      else ({ taken with
              streaming := false
              status_message := "Streaming stopped".toList }, true)
  | none =>
      ({ st with
         streaming := false
         status_message := "Streaming stopped".toList }, true)

/-- Model of `AudioStreamerApp::generate_test_tone`: gated by `is_ip_configured`;
spawns a fire-and-forget ffmpeg tone generator that is not stored in
`ffmpeg_process`. -/
def generate_test_tone (st : AppState) : AppState :=
  if st.config.is_ip_configured then
    let target := "udp://".toList ++ st.config.target_ip ++ ":".toList ++
      natChars st.config.target_port
    let args := ["-f".toList, "lavfi".toList,
      "-i".toList, "sine=frequency=440:duration=5".toList,
      "-c:a".toList, "aac".toList,
      "-f".toList, "mpegts".toList, target]
    { st with
      spawned := st.spawned ++ [args]
      status_message := "Sending 5-second test tone (440Hz)...".toList }
  else
    { st with status_message := "Please set target IP first".toList }

/-! ## Auxiliary definitions used by the stated properties -/

set_option maxRecDepth 10000

/-- Adjacent occurrence of the argument pair `p, q` in an argument vector. -/
def hasPair (p q : List Char) : List (List Char) → Bool
  | a :: b :: rest => (a == p && b == q) || hasPair p q (b :: rest)
  | _ => false

/-- The query-parameter key of the destination URI, `pkt_size=`. -/
def pktPat : List Char := ['p', 'k', 't', '_', 's', 'i', 'z', 'e', '=']

/-- Number of positions of the second argument at which the first argument
occurs as a contiguous substring. -/
def countOccur (pat : List Char) : List Char → Nat
  | [] => 0
  | c :: cs => (if pat.isPrefixOf (c :: cs) then 1 else 0) + countOccur pat cs

/-! ### Concrete inputs used by witnesses and counterexamples -/

/-- Discovery input of the spec's end-to-end example: one `RUNNING`
non-monitor, one `IDLE` monitor matching the default sink's monitor, one
`RUNNING` monitor not matching it. -/
def exSourcesOut : List Char :=
  ("Source #0\n\tName: alsa_input.usb-mic\n\tDescription: USB Microphone\n\tState: RUNNING\n\n" ++
   "Source #1\n\tName: alsa_output.builtin.monitor\n\tDescription: Builtin Audio Monitor\n\tState: IDLE\n\n" ++
   "Source #2\n\tName: alsa_output.hdmi.monitor\n\tDescription: HDMI Audio Monitor\n\tState: RUNNING\n").toList

/-- Default-sink query output for the end-to-end example. -/
def exSinkOut : List Char := "alsa_output.builtin\n".toList

/-- The example's `RUNNING` monitor that is not the default (score 5). -/
def exHdmi : AudioSource :=
  { name := "alsa_output.hdmi.monitor".toList
    description := "HDMI Audio Monitor".toList
    is_monitor := true, is_running := true, is_default := false }

/-- The example's `RUNNING` non-monitor (score 4). -/
def exMic : AudioSource :=
  { name := "alsa_input.usb-mic".toList
    description := "USB Microphone".toList
    is_monitor := false, is_running := true, is_default := false }

/-- The example's `IDLE` default monitor (score 2 + 1 = 3). -/
def exBuiltin : AudioSource :=
  { name := "alsa_output.builtin.monitor".toList
    description := "Builtin Audio Monitor".toList
    is_monitor := true, is_running := false, is_default := true }

/-- Discovery input with one block whose `Name:` field is present but
empty. -/
def exBrokenOut : List Char :=
  "Source #0\n\tName:\n\tDescription: Broken Device\n\tState: IDLE\n".toList

/-- A configured destination used by concrete instances. -/
def exConfig : Config :=
  { Config.defaultConfig with target_ip := "192.168.1.50".toList }

/-- A supervisor state that is currently streaming (handle held). -/
def exRunningState : AppState :=
  { config := exConfig
    sources := [exMic]
    selected_source := 0
    streaming := true
    ffmpeg_process := some 0
    status_message := []
    next_pid := 1
    spawned := [] }

/-- A supervisor state whose destination is the unconfigured `0.0.0.0`. -/
def exUnconfiguredState : AppState :=
  { config := { Config.defaultConfig with target_ip := "0.0.0.0".toList }
    sources := [exMic]
    selected_source := 0
    streaming := false
    ffmpeg_process := none
    status_message := []
    next_pid := 0
    spawned := [] }

/-! ## Order-theoretic facts about the ranking relation -/

instance : IsTotal AudioSource rankLE :=
  ⟨fun a b => by
    unfold rankLE
    rcases lt_trichotomy (score a) (score b) with h | h | h
    · exact Or.inr (Or.inl h)
    · rcases le_total a.description b.description with hd | hd
      · exact Or.inl (Or.inr ⟨h, hd⟩)
      · exact Or.inr (Or.inr ⟨h.symm, hd⟩)
    · exact Or.inl (Or.inl h)⟩

instance : IsTrans AudioSource rankLE :=
  ⟨fun a b c hab hbc => by
    unfold rankLE at hab hbc ⊢
    rcases hab with h1 | ⟨h1, d1⟩ <;> rcases hbc with h2 | ⟨h2, d2⟩
    · exact Or.inl (by omega)
    · exact Or.inl (by omega)
    · exact Or.inl (by omega)
    · exact Or.inr ⟨by omega, le_trans d1 d2⟩⟩

/-! ## Helper lemmas -/

theorem countP_beq_le_one_of_nodup_map {β α : Type} [BEq α] [LawfulBEq α]
    (f : β → α) (a : α) :
    ∀ l : List β, (l.map f).Nodup → l.countP (fun t => f t == a) ≤ 1 := by
  intro l
  induction l with
  | nil => intro _; simp
  | cons x xs ih =>
    intro h
    rw [List.map_cons, List.nodup_cons] at h
    rw [List.countP_cons]
    by_cases hx : f x = a
    · have hz : xs.countP (fun t => f t == a) = 0 := by
        rw [List.countP_eq_zero]
        intro t ht
        simp only [beq_iff_eq]
        intro hta
        have hmem : f t ∈ List.map f xs := List.mem_map_of_mem f ht
        rw [hta, ← hx] at hmem
        exact h.1 hmem
      simp [hz, hx]
    · simp only [beq_iff_eq, hx, if_neg]
      simpa using ih h.2

theorem isPrefixOf_append_self (p t : List Char) :
    p.isPrefixOf (p ++ t) = true := by
  induction p with
  | nil => simp
  | cons a as ih => simp [List.isPrefixOf, ih]

theorem eq_append_of_isPrefixOf :
    ∀ {p l : List Char}, p.isPrefixOf l = true → ∃ t, l = p ++ t := by
  intro p
  induction p with
  | nil => exact fun {l} _ => ⟨l, rfl⟩
  | cons a as ih =>
    intro l h
    match l with
    | [] => simp [List.isPrefixOf] at h
    | b :: bs =>
      rw [List.isPrefixOf, Bool.and_eq_true] at h
      obtain ⟨t, ht⟩ := ih h.2
      exact ⟨t, by rw [List.cons_append, ← ht, beq_iff_eq.mp h.1]⟩

theorem isDigit_digitChar (m : Nat) (h : m < 10) :
    (Nat.digitChar m).isDigit = true := by
  interval_cases m <;> rfl

theorem toDigitsCore_digits (fuel : Nat) :
    ∀ (n : Nat) (ds : List Char), (∀ c ∈ ds, c.isDigit = true) →
      ∀ c ∈ Nat.toDigitsCore 10 fuel n ds, c.isDigit = true := by
  induction fuel with
  | zero => intro n ds h c hc; exact h c hc
  | succ fuel ih =>
    intro n ds h c hc
    rw [Nat.toDigitsCore] at hc
    have hcons : ∀ x ∈ Nat.digitChar (n % 10) :: ds, x.isDigit = true := by
      intro x hx
      rcases List.mem_cons.mp hx with rfl | hx
      · exact isDigit_digitChar _ (Nat.mod_lt _ (by omega))
      · exact h x hx
    by_cases hz : n / 10 = 0
    · rw [if_pos hz] at hc
      exact hcons c hc
    · rw [if_neg hz] at hc
      exact ih _ _ hcons c hc

theorem natChars_digits (n : Nat) : ∀ c ∈ natChars n, c.isDigit = true := by
  have he : natChars n = Nat.toDigits 10 n := rfl
  rw [he, Nat.toDigits]
  exact toDigitsCore_digits _ _ _ (by simp)

theorem count_eq_natChars (n : Nat) : (natChars n).count '=' = 0 := by
  rw [List.count_eq_zero]
  intro hmem
  have := natChars_digits n '=' hmem
  exact absurd this (by decide)

theorem countOccur_append_no_p (ys : List Char) :
    ∀ xs : List Char, (∀ c ∈ xs, c ≠ 'p') →
      countOccur pktPat (xs ++ ys) = countOccur pktPat ys := by
  intro xs
  induction xs with
  | nil => intro _; rfl
  | cons x xs ih =>
    intro h
    have hx : x ≠ 'p' := h x (List.mem_cons_self x xs)
    have hpre : pktPat.isPrefixOf (x :: (xs ++ ys)) = false := by
      simp [pktPat, List.isPrefixOf]
      intro he
      exact absurd he.symm hx
    rw [List.cons_append, countOccur, hpre]
    simpa using ih fun c hc => h c (List.mem_cons_of_mem x hc)

theorem countOccur_le_count : ∀ (n : Nat) (hay : List Char), hay.length ≤ n →
    countOccur pktPat hay ≤ hay.count '=' := by
  intro n
  induction n with
  | zero =>
    intro hay h
    rw [List.length_eq_zero.mp (Nat.le_zero.mp h)]
    simp [countOccur]
  | succ n ih =>
    intro hay hlen
    match hay with
    | [] => simp [countOccur]
    | c :: cs =>
      have h1 : cs.length ≤ n := by
        have : cs.length + 1 ≤ n + 1 := by simpa using hlen
        omega
      by_cases hp : pktPat.isPrefixOf (c :: cs) = true
      · obtain ⟨rest, hrest⟩ := eq_append_of_isPrefixOf hp
        have hc : c = 'p' := by
          have h0 := congrArg List.head? hrest
          simp [pktPat] at h0
          exact h0
        have hcs : cs = ['k', 't', '_', 's', 'i', 'z', 'e', '='] ++ rest := by
          have h0 := congrArg List.tail hrest
          simp [pktPat] at h0
          exact h0
        subst hc
        have hsub : countOccur pktPat cs = countOccur pktPat rest := by
          rw [hcs]
          exact countOccur_append_no_p rest _ (by decide)
        have hrest_len : rest.length ≤ n := by
          have h2 : cs.length = 8 + rest.length := by rw [hcs]; simp; omega
          omega
        have ihr := ih rest hrest_len
        have hcnt : ('p' :: cs).count '=' = 1 + rest.count '=' := by
          rw [hcs, ← List.cons_append, List.count_append]
          have hlit : (('p' :: ['k', 't', '_', 's', 'i', 'z', 'e', '=']) :
              List Char).count '=' = 1 := by decide
          omega
        rw [countOccur, if_pos hp, hsub, hcnt]
        omega
      · rw [countOccur, if_neg (by simpa using hp)]
        have hcc : cs.count '=' ≤ (c :: cs).count '=' := by
          rw [List.count_cons]
          omega
        have := ih cs h1
        omega

theorem one_le_countOccur (ys : List Char) :
    ∀ xs : List Char, 1 ≤ countOccur pktPat (xs ++ (pktPat ++ ys)) := by
  intro xs
  induction xs with
  | nil =>
    rw [List.nil_append]
    have hpre : pktPat.isPrefixOf (pktPat ++ ys) = true :=
      isPrefixOf_append_self pktPat ys
    have hshape : pktPat ++ ys =
        'p' :: (['k', 't', '_', 's', 'i', 'z', 'e', '='] ++ ys) := rfl
    rw [hshape] at hpre ⊢
    rw [countOccur, if_pos hpre]
    omega
  | cons x xs ih =>
    rw [List.cons_append, countOccur]
    omega

theorem destination_count_one (c : Config) (h : '=' ∉ c.target_ip) :
    countOccur pktPat c.destination = 1 := by
  have hip : c.target_ip.count '=' = 0 := List.count_eq_zero.mpr h
  have hcnt : c.destination.count '=' = 1 := by
    show ("udp://".toList ++ c.target_ip ++ ":".toList ++
      natChars c.target_port ++ "?pkt_size=".toList ++
      natChars c.buffer_size).count '=' = 1
    simp only [List.count_append, hip, count_eq_natChars]
    decide
  have hle : countOccur pktPat c.destination ≤ 1 :=
    hcnt ▸ countOccur_le_count c.destination.length c.destination le_rfl
  have hsplit : c.destination =
      ("udp://".toList ++ c.target_ip ++ ":".toList ++
          natChars c.target_port ++ ['?']) ++
        (pktPat ++ natChars c.buffer_size) := by
    show "udp://".toList ++ c.target_ip ++ ":".toList ++
        natChars c.target_port ++ "?pkt_size=".toList ++
        natChars c.buffer_size = _
    have hq : ("?pkt_size=".toList : List Char) = '?' :: pktPat := rfl
    rw [hq]
    simp [List.append_assoc]
  have hge : 1 ≤ countOccur pktPat c.destination := by
    rw [hsplit]
    exact one_le_countOccur _ _
  omega

/-! ## Claim theorems -/

/-- C1 (amended): every element's score is 4 for active plus 2 for system
default plus 1 for loopback monitor, and every list produced by
`get_audio_sources` is sorted descending by this score with ties broken by
ascending lexical order of the description; for the three-block end-to-end
example the `RUNNING` monitor (score 5) is first, the `RUNNING`
non-monitor (score 4) second, and the `IDLE` default monitor last — with
score 3 (default 2 + monitor 1), not the score 2 stated in the claim. -/
theorem ranking_scores_sorted_with_example :
    (∀ s : AudioSource, score s =
        (if s.is_running then 4 else 0) + (if s.is_default then 2 else 0) +
          (if s.is_monitor then 1 else 0)) ∧
    (∀ stdout q, List.Sorted rankLE (get_audio_sources stdout q)) ∧
    (get_audio_sources exSourcesOut (some exSinkOut)).map
        (fun s => (s.description, score s)) =
      [("HDMI Audio Monitor".toList, 5), ("USB Microphone".toList, 4),
        ("Builtin Audio Monitor".toList, 3)] := by
  refine ⟨fun s => by unfold score; omega, fun stdout q => ?_, by decide⟩
  unfold get_audio_sources
  exact List.sorted_insertionSort rankLE _

/-- C1 (counterexample): on the end-to-end example input, the ranked list
is not `[(RUNNING monitor, 5), (RUNNING non-monitor, 4), (IDLE default
monitor, 2)]` as the claim states — the last element's score is 3. -/
theorem ranking_example_default_monitor_score_not_two :
    ¬ (get_audio_sources exSourcesOut (some exSinkOut)).map
        (fun s => (s.description, score s)) =
      [("HDMI Audio Monitor".toList, 5), ("USB Microphone".toList, 4),
        ("Builtin Audio Monitor".toList, 2)] := by
  decide

/-- C2: for every non-empty list produced by `get_audio_sources`, the
head's score is greater than or equal to the score of every element, and
`get_best_source_index` returns 0 on it, so the two are consistent. -/
theorem sorted_head_score_max_and_best_index (stdout : List Char)
    (q : Option (List Char)) (a : AudioSource) (rest : List AudioSource)
    (h : get_audio_sources stdout q = a :: rest) :
    ((a :: rest).all fun b => decide (score b ≤ score a)) = true ∧
      get_best_source_index (a :: rest) = 0 := by
  refine ⟨?_, rfl⟩
  have hs : List.Sorted rankLE (a :: rest) := by
    rw [← h]
    unfold get_audio_sources
    exact List.sorted_insertionSort rankLE _
  rw [List.all_eq_true]
  intro b hb
  rcases List.mem_cons.mp hb with rfl | hb
  · simp
  · have := List.rel_of_sorted_cons hs b hb
    unfold rankLE at this
    rcases this with h' | ⟨h', _⟩ <;> simp <;> omega

/-- C2 (witness): the non-empty ranked list of the end-to-end example. -/
theorem sorted_head_score_max_and_best_index_inst :
    (([exHdmi, exMic, exBuiltin]).all fun b =>
        decide (score b ≤ score exHdmi)) = true ∧
      get_best_source_index [exHdmi, exMic, exBuiltin] = 0 :=
  sorted_head_score_max_and_best_index exSourcesOut (some exSinkOut) exHdmi
    [exMic, exBuiltin] (by decide)

/-- C3 (counterexample): calling `start_streaming` on a state that is
already streaming (handle `some 0` held) does have side effects — a second
child process is launched and the stored handle is replaced. -/
theorem start_while_running_spawns_second :
    exRunningState.streaming = true ∧
      (start_streaming exRunningState).spawned.length =
        exRunningState.spawned.length + 1 ∧
      (start_streaming exRunningState).ffmpeg_process ≠
        exRunningState.ffmpeg_process := by
  decide

/-- C3 (amended): `start_streaming` has no already-running guard.  Whenever
the destination is configured and the selected index denotes a source —
regardless of whether a stream is already `Running` — it launches a new
child process and overwrites the stored handle with the fresh one;
preventing a second concurrent launch is left entirely to the caller. -/
theorem start_streaming_unguarded (st : AppState) (source : AudioSource)
    (hip : st.config.is_ip_configured = true)
    (hsel : st.sources.get? st.selected_source = some source) :
    (start_streaming st).spawned =
        st.spawned ++ [["-v".toList, "info".toList] ++
          st.config.build_ffmpeg_command source.name] ∧
      (start_streaming st).ffmpeg_process = some st.next_pid ∧
      (start_streaming st).streaming = true := by
  have hsel2 : st.sources[st.selected_source]? = some source := by
    rw [← List.get?_eq_getElem?]
    exact hsel
  simp [start_streaming, hip, hsel2]

/-- C3 (witness): the amended behaviour at a concrete running state. -/
theorem start_streaming_unguarded_inst :
    (start_streaming exRunningState).spawned =
        exRunningState.spawned ++ [["-v".toList, "info".toList] ++
          exRunningState.config.build_ffmpeg_command exMic.name] ∧
      (start_streaming exRunningState).ffmpeg_process =
        some exRunningState.next_pid ∧
      (start_streaming exRunningState).streaming = true :=
  start_streaming_unguarded exRunningState exMic (by decide) (by decide)

/-- C4 (counterexample): when `kill()` reports an error while a process is
held, `stop_streaming` does not leave the supervisor in `Idle`: the handle
is cleared by `take()`, but the early `?` return skips `streaming = false`,
so the state after the call is not (streaming = false ∧ no handle). -/
theorem stop_kill_error_leaves_streaming :
    ¬ ((stop_streaming true false exRunningState).1.streaming = false ∧
        (stop_streaming true false exRunningState).1.ffmpeg_process = none) := by
  decide

/-- C4 (amended): after `stop_streaming` the process handle is always
cleared; when neither `kill()` nor `wait()` fails — and likewise when no
process was held — the state is `Idle` (`streaming = false`) and the call
returns `Ok`.  But when a process was held and `kill()` or `wait()`
reports an error, the method returns the error early and `streaming` is
left unchanged (still `true` if a stream was running). -/
theorem stop_streaming_state (kf wf : Bool) (st : AppState) :
    (stop_streaming kf wf st).1.ffmpeg_process = none ∧
      (kf = false → wf = false →
        (stop_streaming kf wf st).1.streaming = false ∧
          (stop_streaming kf wf st).2 = true) ∧
      (st.ffmpeg_process = none →
        (stop_streaming kf wf st).1.streaming = false ∧
          (stop_streaming kf wf st).2 = true) ∧
      (st.ffmpeg_process ≠ none → (kf = true ∨ wf = true) →
        (stop_streaming kf wf st).1.streaming = st.streaming ∧
          (stop_streaming kf wf st).2 = false) := by
  rcases hp : st.ffmpeg_process with _ | pid <;> cases kf <;> cases wf <;>
    simp [stop_streaming, hp]

/-- C4 (witness): a failing `kill()` on a concrete running state. -/
theorem stop_streaming_state_inst :
    (stop_streaming true false exRunningState).1.ffmpeg_process = none ∧
      (stop_streaming true false exRunningState).1.streaming =
        exRunningState.streaming ∧
      (stop_streaming true false exRunningState).2 = false := by
  have h := stop_streaming_state true false exRunningState
  exact ⟨h.1, (h.2.2.2 (by decide) (Or.inl rfl)).1,
    (h.2.2.2 (by decide) (Or.inl rfl)).2⟩

/-- C5: a discovered source is active exactly when the reported state
string equals the exact token `RUNNING`; any other state string (including
idle and suspended tokens) yields `is_running = false`. -/
theorem is_running_iff_state_is_RUNNING (dsm : List Char)
    (t : List Char × List Char × List Char) :
    (toAudioSource dsm t).is_running = true ↔ t.2.2 = "RUNNING".toList := by
  simp [toAudioSource]

/-- C6: a discovery cycle whose parsed blocks carry pairwise-distinct
names (the identifier-uniqueness invariant of the data model) produces a
list with at most one element marked as the system default. -/
theorem at_most_one_default (stdout : List Char) (q : Option (List Char))
    (h : ((parse_pactl_sources_output stdout).map (fun t => t.1)).Nodup) :
    (get_audio_sources stdout q).countP (fun s => s.is_default) ≤ 1 := by
  unfold get_audio_sources
  rw [(List.perm_insertionSort rankLE _).countP_eq, List.countP_map]
  exact countP_beq_le_one_of_nodup_map
    (fun t : List Char × List Char × List Char => t.1)
    ((q.map get_default_sink_monitor_name).getD []) _ h

/-- C6 (witness): the end-to-end example has distinct names and at most
one default. -/
theorem at_most_one_default_inst :
    (get_audio_sources exSourcesOut (some exSinkOut)).countP
        (fun s => s.is_default) ≤ 1 :=
  at_most_one_default exSourcesOut (some exSinkOut) (by decide)

/-- C7 (counterexample): when the default-sink query fails (`none`), a
block whose `Name:` field is empty still yields `is_default = true`,
because `unwrap_or_default` turns the failure into the empty string and
the empty name compares equal to it — so not every element of the
resulting list has `is_default = false`. -/
theorem default_failure_head_is_default :
    ((get_audio_sources exBrokenOut none).head?.map
        (fun s => s.is_default)) = some true := by
  decide

/-- C7 (amended): when the default-sink query fails, an element of the
resulting list has `is_default = true` exactly when its name is the empty
string (the `unwrap_or_default` sentinel); in particular every element
with a non-empty identifier has `is_default = false`.  The failure never
propagates as a discovery error: discovery still returns a list. -/
theorem default_failure_is_default_iff_name_empty (stdout : List Char)
    (s : AudioSource) (hs : s ∈ get_audio_sources stdout none) :
    (s.is_default = true ↔ s.name = []) ∧
      get_audio_sources_checked true stdout none =
        some (get_audio_sources stdout none) := by
  refine ⟨?_, rfl⟩
  have hmem : s ∈ (parse_pactl_sources_output stdout).map (toAudioSource []) := by
    simpa [get_audio_sources, List.mem_insertionSort] using hs
  obtain ⟨t, _, rfl⟩ := List.mem_map.mp hmem
  simp [toAudioSource]

/-- C7 (witness): the amended statement at the concrete empty-name
element. -/
theorem default_failure_is_default_iff_name_empty_inst :
    ((AudioSource.mk [] "Broken Device".toList false false true).is_default =
          true ↔
        (AudioSource.mk [] "Broken Device".toList false false true).name = []) ∧
      get_audio_sources_checked true exBrokenOut none =
        some (get_audio_sources exBrokenOut none) :=
  default_failure_is_default_iff_name_empty exBrokenOut _ (by decide)

/-- C8: the built argument vector contains the decode-delay suppression
pair (`-flags +low_delay`), the input-buffering suppression pair
(`-fflags +nobuffer`) and the forced-flush pair (`-flush_packets 1`)
exactly when `low_latency` is set: all three are present together when it
is `true` and none is present when it is `false` — never a proper
subset. -/
theorem low_latency_flag_pairs (c : Config) (source : List Char) :
    hasPair "-flags".toList "+low_delay".toList
        (c.build_ffmpeg_command source) = c.low_latency ∧
      hasPair "-fflags".toList "+nobuffer".toList
        (c.build_ffmpeg_command source) = c.low_latency ∧
      hasPair "-flush_packets".toList "1".toList
        (c.build_ffmpeg_command source) = c.low_latency := by
  rcases c with ⟨ip, port, codec, br, sr, ch, buf, ll, pref⟩
  cases ll <;>
    simp +decide [Config.build_ffmpeg_command, hasPair]

/-- C9: the built argument vector fixes the output container to `mpegts`,
forces `-muxdelay 0` and `-muxpreload 0`, and ends with the destination
`udp://host:port?pkt_size=<buffer_size>`; provided the configured host
contains no `=` character (true of any IP address or hostname), the
`pkt_size=` query parameter occurs in the destination exactly once. -/
theorem output_stage_and_pkt_size_once (c : Config) (source : List Char)
    (h : '=' ∉ c.target_ip) :
    hasPair "-f".toList "mpegts".toList (c.build_ffmpeg_command source) = true ∧
      hasPair "-muxdelay".toList "0".toList
        (c.build_ffmpeg_command source) = true ∧
      hasPair "-muxpreload".toList "0".toList
        (c.build_ffmpeg_command source) = true ∧
      (c.build_ffmpeg_command source).getLast? = some c.destination ∧
      countOccur pktPat c.destination = 1 := by
  refine ⟨?_, ?_, ?_, ?_, destination_count_one c h⟩ <;>
    (rcases c with ⟨ip, port, codec, br, sr, ch, buf, ll, pref⟩
     cases ll <;>
       simp +decide [Config.build_ffmpeg_command, hasPair])

/-- C9 (witness): the output-stage properties at a concrete
configuration. -/
theorem output_stage_and_pkt_size_once_inst :
    hasPair "-f".toList "mpegts".toList
        (exConfig.build_ffmpeg_command "alsa_input.usb-mic".toList) = true ∧
      hasPair "-muxdelay".toList "0".toList
        (exConfig.build_ffmpeg_command "alsa_input.usb-mic".toList) = true ∧
      hasPair "-muxpreload".toList "0".toList
        (exConfig.build_ffmpeg_command "alsa_input.usb-mic".toList) = true ∧
      (exConfig.build_ffmpeg_command "alsa_input.usb-mic".toList).getLast? =
        some exConfig.destination ∧
      countOccur pktPat exConfig.destination = 1 :=
  output_stage_and_pkt_size_once exConfig "alsa_input.usb-mic".toList
    (by decide)

/-- C10: `is_ip_configured` holds exactly when the target IP is non-empty
and differs from the literal `0.0.0.0`, and an unconfigured destination
gates both starting a stream and sending a test tone: neither spawns a
process nor touches the stored handle or streaming flag. -/
theorem is_ip_configured_iff_and_gating (c : Config) (st : AppState) :
    (c.is_ip_configured = true ↔
        c.target_ip ≠ [] ∧ c.target_ip ≠ "0.0.0.0".toList) ∧
      (st.config.is_ip_configured = false →
        (start_streaming st).spawned = st.spawned ∧
          (start_streaming st).ffmpeg_process = st.ffmpeg_process ∧
          (start_streaming st).streaming = st.streaming ∧
          (generate_test_tone st).spawned = st.spawned) := by
  constructor
  · simp [Config.is_ip_configured, List.isEmpty_iff]
  · intro h
    simp [start_streaming, generate_test_tone, h]

/-- C10 (witness): the gating at a concrete state whose target is
`0.0.0.0`. -/
theorem is_ip_configured_iff_and_gating_inst :
    (start_streaming exUnconfiguredState).spawned =
        exUnconfiguredState.spawned ∧
      (start_streaming exUnconfiguredState).ffmpeg_process =
        exUnconfiguredState.ffmpeg_process ∧
      (start_streaming exUnconfiguredState).streaming =
        exUnconfiguredState.streaming ∧
      (generate_test_tone exUnconfiguredState).spawned =
        exUnconfiguredState.spawned :=
  (is_ip_configured_iff_and_gating exUnconfiguredState.config
    exUnconfiguredState).2 (by decide)
